import Mathlib

/-!
Verification of the go-redis-server core (`server.go`): command-table
construction (`NewServer`), the acceptor loop (`Serve`), the per-connection
session loop (`ServeClient`), address defaulting (`ListenAndServe`) and the
shutdown signal (`Shutdown`).

Connections and the listener are modelled by terminating scripts of I/O
outcomes; each run yields the ordered trace of connection events (reads,
reply writes, the deferred fallback error line, closes) together with the
final error value of the Go function, exactly following the control flow of
`server.go`.  Collaborators that live outside `server.go` (the parser, the
reply encoder, `Apply`, `createHandlerFn`, `Register`, `NewDefaultHandler`,
the `Config` builder) are modelled from the specification and marked as such.
-/

namespace RedisServer

/-- A parsed request: command name, arguments and the client address
(`Request.Host` is assigned by `ServeClient` before dispatch). -/
structure Request where
  name : String
  args : List String
  host : String
deriving DecidableEq

/-- A reply, modelled as the exact byte string its `WriteTo` emits. -/
structure Reply where
  encoded : String
deriving DecidableEq

/-- The stored dispatch function type, mirroring Go's
`type HandlerFn func(r *Request) (ReplyWriter, error)`: a reply together
with an optional error message. -/
abbrev HandlerFn := Request → Reply × Option String

/-- The deferred fallback error line of `ServeClient`:
`fmt.Fprintf(conn, "-%s\n", err)` (src/server.go line 65). -/
def errLine (msg : String) : String := "-" ++ msg ++ "\n"

/-- Modelled from the spec: the error `Reply` encoder (reply.go, not under
src/).  A dispatch error is encoded as a single protocol error line. -/
def NewErrorReply (msg : String) : Reply := { encoded := "-" ++ msg ++ "\r\n" }

/-- Modelled from the spec: the protocol-level reply for a command name that
is not in the command table (reply.go, not under src/). -/
def unknownCommandReply : Reply := NewErrorReply "unknown command"

/-- Modelled from the spec: the DispatchAdapter produced by
`createHandlerFn` (not under src/) around one application-level handler
operation.  Per the spec's error taxonomy, a DispatchError raised by the
operation is converted into an encoded error Reply and a nil error, so it
never surfaces as a session-ending error. -/
def adaptDispatch (f : Request → Except String Reply) : HandlerFn :=
  fun r =>
    match f r with
    | Except.ok rep => (rep, none)
    | Except.error m => (NewErrorReply m, none)

/-- Lookup in the command table (an association list keyed by the exact,
case-sensitive command name, per the spec's `CommandName`). -/
def lookupFn : List (String × HandlerFn) → String → Option HandlerFn
  | [], _ => none
  | p :: rest, name => if p.1 = name then some p.2 else lookupFn rest name

/-- Modelled from the spec: `Server.Apply` (not under src/): look the
request's command name up in the table; an unregistered name yields the
"unknown command" Reply (never an error); a found adapter is invoked. -/
def Apply (methods : List (String × HandlerFn)) (r : Request) :
    Reply × Option String :=
  match lookupFn methods r.name with
  | none => (unknownCommandReply, none)
  | some fn => fn r

/-- The state of a Go channel used purely as a broadcast signal:
`close(ch)` marks it closed; closing a closed channel panics. -/
inductive ChanState where
  | opened
  | closed
deriving DecidableEq

/-- Go semantics of `close` on a signal channel: closing an open channel
succeeds; closing an already-closed channel panics (modelled as an error
that is fatal to the process). -/
def closeChan : ChanState → Except String ChanState
  | ChanState.opened => Except.ok ChanState.closed
  | ChanState.closed => Except.error "close of closed channel"

/-- The `Server` struct of src/server.go lines 13-19. -/
structure Server where
  proto : String
  addr : String
  monitorChans : List Nat
  methods : List (String × HandlerFn)
  exitChan : ChanState

/-- `Server.Shutdown` (src/server.go lines 108-111): `close(srv.exitChan)`. -/
def Shutdown (srv : Server) : Except String Server :=
  match closeChan srv.exitChan with
  | Except.ok st => Except.ok { srv with exitChan := st }
  | Except.error m => Except.error m

/-- One handler operation as enumerated by `reflect.TypeOf(...).Method(i)`
(src/server.go lines 130-132): identified by its name. -/
structure GoMethod where
  name : String
deriving DecidableEq

/-- The configuration consumed by `NewServer`.  The `Config` type itself is
not under src/; its fields are modelled from their uses in `NewServer`
(src/server.go lines 115-130): `c.proto`, `c.host`, `c.port`, `c.handler`.
The handler is modelled as the list of its exported methods, in the order
reflection enumerates them; `none` models a nil handler. -/
structure Config where
  proto : String
  host : String
  port : Nat
  handler : Option (List GoMethod)

/-- Modelled from the spec: `NewDefaultHandler` (defaultHandler.go, not
under src/); the spec substitutes "a default no-op handler with an empty
command set" when the configured handler is absent. -/
def NewDefaultHandler : List GoMethod := []

/-- The first-character filter of src/server.go line 133:
`if method.Name[0] > 'a' && method.Name[0] < 'z' { continue }` — the method
is skipped exactly when its first byte lies strictly between 97 and 122. -/
def skipsMethod (name : String) : Bool :=
  match name.toList with
  | [] => false
  | c :: _ => decide (97 < c.toNat) && decide (c.toNat < 122)

/-- Go's exported-identifier convention for ASCII names: the first character
is an uppercase letter (byte 65..90). -/
def isExported (name : String) : Bool :=
  match name.toList with
  | [] => false
  | c :: _ => decide (65 ≤ c.toNat) && decide (c.toNat ≤ 90)

/-- Modelled from the spec: `Server.Register` (not under src/): insert into
the command table keyed by exact name, later registrations for the same
name overwriting earlier ones (last-write-wins). -/
def register : List (String × HandlerFn) → String → HandlerFn →
    List (String × HandlerFn)
  | [], name, fn => [(name, fn)]
  | p :: rest, name, fn =>
    if p.1 = name then (name, fn) :: rest else p :: register rest name fn

/-- The method-registration loop of `NewServer` (src/server.go lines
130-142): for each enumerated method, skip it if the first-character filter
fires, otherwise attempt to build an adapter with `createHandlerFn`
(abstracted as `create`, since its body is not under src/) and register it;
an adapter failure aborts with that error. -/
def registerLoop (create : GoMethod → Except String HandlerFn) :
    List GoMethod → List (String × HandlerFn) →
    Except String (List (String × HandlerFn))
  | [], acc => Except.ok acc
  | m :: rest, acc =>
    if skipsMethod m.name then registerLoop create rest acc
    else
      match create m with
      | Except.error e => Except.error e
      | Except.ok fn => registerLoop create rest (register acc m.name fn)

/-- The handler whose methods `NewServer` enumerates: the configured one,
or `NewDefaultHandler` when it is nil (src/server.go lines 126-128). -/
def handlerMethods (c : Config) : List GoMethod :=
  match c.handler with
  | none => NewDefaultHandler
  | some h => h

/-- `NewServer` (src/server.go lines 113-145): build the address from the
config, run the registration loop over the handler's methods, and return
the fully constructed server (with a fresh open exit channel) or the first
adapter error. -/
def NewServer (c : Config) (create : GoMethod → Except String HandlerFn) :
    Except String Server :=
  let addr := if c.proto = "unix" then c.host
              else c.host ++ ":" ++ toString c.port
  match registerLoop create (handlerMethods c) [] with
  | Except.error e => Except.error e
  | Except.ok table =>
    Except.ok { proto := c.proto, addr := addr, monitorChans := [],
                methods := table, exitChan := ChanState.opened }

/-- Whether the command table has an entry under `name`. -/
def containsName : List (String × HandlerFn) → String → Bool
  | [], _ => false
  | p :: rest, name => if p.1 = name then true else containsName rest name

/-- `Server.ListenAndServe` address resolution (src/server.go lines 21-30):
default the protocol to "tcp" when empty, then pick the address handed to
`net.Listen`: the unix default path, the default port, or the configured
address unchanged.  Returns the updated server and that address. -/
def ListenAndServe (srv : Server) : Server × String :=
  let srv2 := if srv.proto = "" then { srv with proto := "tcp" } else srv
  let addr :=
    if srv2.proto = "unix" ∧ srv.addr = "" then "/tmp/redis.sock"
    else if srv.addr = "" then ":6389"
    else srv.addr
  (srv2, addr)

/-- Observable events on one client connection, in order: a `parseRequest`
attempt consuming from the connection, a Reply fully written by
`reply.WriteTo(conn)`, the deferred fallback error line written by
`fmt.Fprintf(conn, "-%s\n", err)`, and `conn.Close()`. -/
inductive ConnEvent where
  | read
  | write (bytes : String)
  | errLineWrite (bytes : String)
  | close
deriving DecidableEq

/-- A terminating run of the `ServeClient` loop, as the sequence of
outcomes the environment produces at each loop iteration: the exit channel
is observed closed; `parseRequest` fails with a message; or `parseRequest`
yields a request, with `writeFail` telling whether the subsequent
`reply.WriteTo(conn)` fails.  Every script ends the loop by construction,
mirroring exactly the terminating executions of the loop. -/
inductive SessionScript where
  | exit
  | readErr (msg : String)
  | req (r : Request) (writeFail : Option String) (rest : SessionScript)

/-- The `for`/`select` loop of `ServeClient` (src/server.go lines 86-104):
on exit-signal return nil; on parse failure return that error; otherwise
set `request.Host`, call `Apply`, return its error if any, else write the
reply (returning the write error if it fails) and loop.  Yields the
connection-event trace of the loop together with the function's error
value. -/
def serveClientLoop (srv : Server) (addr : String) :
    SessionScript → List ConnEvent × Option String
  | SessionScript.exit => ([], none)
  | SessionScript.readErr m => ([ConnEvent.read], some m)
  | SessionScript.req r w rest =>
    match Apply srv.methods { r with host := addr }, w with
    | (_, some m), _ => ([ConnEvent.read], some m)
    | (_, none), some m => ([ConnEvent.read], some m)
    | (reply, none), none =>
      (ConnEvent.read :: ConnEvent.write reply.encoded ::
        (serveClientLoop srv addr rest).1,
       (serveClientLoop srv addr rest).2)

/-- The deferred epilogue of `ServeClient` (src/server.go lines 63-71):
when the returned error is non-nil, write the fallback line `-<err>\n`;
then always close the connection. -/
def sessionDeferred (e : Option String) : List ConnEvent :=
  match e with
  | some m => [ConnEvent.errLineWrite (errLine m), ConnEvent.close]
  | none => [ConnEvent.close]

/-- `Server.ServeClient` (src/server.go lines 61-106): resolve the client
address (for a unix connection `File()` can fail, ending the session before
the loop), run the loop, and run the deferred epilogue on every path.
Returns the full connection-event trace and the error value. -/
def ServeClient (srv : Server) (connAddr : Except String String)
    (s : SessionScript) : List ConnEvent × Option String :=
  match connAddr with
  | Except.error m => (sessionDeferred (some m), some m)
  | Except.ok addr =>
    ((serveClientLoop srv addr s).1 ++
       sessionDeferred (serveClientLoop srv addr s).2,
     (serveClientLoop srv addr s).2)

/-- Strict request/reply alternation over a connection trace: reads and
reply writes must alternate, starting with a read (the flag is `true` when
a read is expected next); the deferred error line and the close are not
replies and are skipped. -/
def altRW : Bool → List ConnEvent → Bool
  | _, [] => true
  | b, ConnEvent.close :: rest => altRW b rest
  | b, ConnEvent.errLineWrite _ :: rest => altRW b rest
  | true, ConnEvent.read :: rest => altRW false rest
  | false, ConnEvent.read :: _ => false
  | false, ConnEvent.write _ :: rest => altRW true rest
  | true, ConnEvent.write _ :: _ => false

/-- Whether a trace contains a write of the deferred fallback error line. -/
def writesErrLine : List ConnEvent → Bool
  | [] => false
  | ConnEvent.errLineWrite _ :: _ => true
  | _ :: rest => writesErrLine rest

/-- A terminating run of the `Serve` accept loop: the exit channel is
observed closed; `Accept` fails; or a connection is accepted (spawning a
session goroutine) and the loop continues. -/
inductive AcceptScript where
  | exit
  | acceptErr (msg : String)
  | conn (rest : AcceptScript)

/-- Observable events of the acceptor: an `Accept` attempt, the spawning of
a `ServeClient` goroutine, and `l.Close()`. -/
inductive ListenerEvent where
  | acceptAttempt
  | spawn
  | closeListener
deriving DecidableEq

/-- The `for`/`select` loop of `Serve` (src/server.go lines 44-55): on
exit-signal return nil; on accept failure return that error; otherwise
spawn a session and loop. -/
def serveLoop : AcceptScript → List ListenerEvent × Option String
  | AcceptScript.exit => ([], none)
  | AcceptScript.acceptErr m => ([ListenerEvent.acceptAttempt], some m)
  | AcceptScript.conn rest =>
    (ListenerEvent.acceptAttempt :: ListenerEvent.spawn ::
       (serveLoop rest).1,
     (serveLoop rest).2)

/-- `Server.Serve` (src/server.go lines 41-56): `defer l.Close()`, reset
`srv.MonitorChans` to the empty slice, then run the accept loop.  Returns
the updated server, the listener-event trace (the deferred close appended
on every path) and the error value. -/
def Serve (srv : Server) (s : AcceptScript) :
    Server × List ListenerEvent × Option String :=
  let srv2 := { srv with monitorChans := [] }
  (srv2, (serveLoop s).1 ++ [ListenerEvent.closeListener], (serveLoop s).2)

/-- Whether a list ends with the element `x`. -/
def endsWith {α : Type} [DecidableEq α] (x : α) : List α → Bool
  | [] => false
  | [a] => decide (a = x)
  | _ :: b :: rest => endsWith x (b :: rest)

/-- A server value used to instantiate concrete runs. -/
def demoServer : Server :=
  { proto := "tcp", addr := ":6389", monitorChans := [], methods := [],
    exitChan := ChanState.opened }

/-- A dispatch function that always raises an application-level
DispatchError. -/
def failingFn : Request → Except String Reply :=
  fun _ => Except.error "wrong number of arguments"

/-- A server whose table maps "GET" to the adapter around `failingFn`. -/
def c1Server : Server :=
  { proto := "tcp", addr := ":6389", monitorChans := [],
    methods := [("GET", adaptDispatch failingFn)],
    exitChan := ChanState.opened }

/-- A dispatch function that always succeeds with a fixed reply. -/
def okHandlerFn : HandlerFn := fun _ => ({ encoded := "+OK\r\n" }, none)

/-- A configuration whose handler exposes the single method "GET". -/
def getConfig : Config :=
  { proto := "tcp", host := "", port := 6389,
    handler := some [{ name := "GET" }] }

/-- An adapter builder that succeeds on every method. -/
def okCreate : GoMethod → Except String HandlerFn :=
  fun _ => Except.ok okHandlerFn

/-- The server `NewServer getConfig okCreate` constructs. -/
def getServer : Server :=
  { proto := "tcp", addr := ":6389", monitorChans := [],
    methods := [("GET", okHandlerFn)], exitChan := ChanState.opened }

/-- An adapter builder that fails on every method, as `createHandlerFn`
does on an unsupported signature. -/
def badCreate : GoMethod → Except String HandlerFn :=
  fun m => Except.error ("Cannot handle method " ++ m.name)

/-- A configuration with a nil handler. -/
def nilHandlerConfig : Config :=
  { proto := "tcp", host := "", port := 6389, handler := none }

theorem register_contains_self (t : List (String × HandlerFn)) (n : String)
    (f : HandlerFn) : containsName (register t n f) n = true := by
  induction t with
  | nil => simp [register, containsName]
  | cons p rest ih =>
    by_cases hp : p.1 = n
    · simp [register, hp, containsName]
    · simp [register, hp, containsName, ih]

theorem register_keeps (t : List (String × HandlerFn)) (n m : String)
    (f : HandlerFn) (h : containsName t m = true) :
    containsName (register t n f) m = true := by
  induction t with
  | nil => simp [containsName] at h
  | cons p rest ih =>
    by_cases hp : p.1 = n
    · have hreg : register (p :: rest) n f = (n, f) :: rest := by
        simp [register, hp]
      rw [hreg]
      by_cases hm : p.1 = m
      · have hnm : n = m := hp.symm.trans hm
        simp [containsName, hnm]
      · have hnm : ¬n = m := fun hc => hm (hp.trans hc)
        simp [containsName, hm] at h
        simp [containsName, hnm, h]
    · have hreg : register (p :: rest) n f = p :: register rest n f := by
        simp [register, hp]
      rw [hreg]
      by_cases hm : p.1 = m
      · simp [containsName, hm]
      · simp [containsName, hm] at h
        simp [containsName, hm, ih h]

theorem registerLoop_mono (create : GoMethod → Except String HandlerFn)
    (ms : List GoMethod) (n : String) :
    ∀ (acc out : List (String × HandlerFn)), containsName acc n = true →
      registerLoop create ms acc = Except.ok out →
      containsName out n = true := by
  induction ms with
  | nil =>
    intro acc out hacc hrun
    simp [registerLoop] at hrun
    exact hrun ▸ hacc
  | cons m rest ih =>
    intro acc out hacc hrun
    by_cases hskip : skipsMethod m.name = true
    · simp [registerLoop, hskip] at hrun
      exact ih acc out hacc hrun
    · simp [registerLoop, hskip] at hrun
      cases hc : create m with
      | error e => simp [hc] at hrun
      | ok fn =>
        simp [hc] at hrun
        exact ih (register acc m.name fn) out
          (register_keeps acc m.name n fn hacc) hrun

theorem registerLoop_contains (create : GoMethod → Except String HandlerFn)
    (ms : List GoMethod) (m : GoMethod) :
    ∀ (acc out : List (String × HandlerFn)), m ∈ ms →
      skipsMethod m.name = false →
      registerLoop create ms acc = Except.ok out →
      containsName out m.name = true := by
  induction ms with
  | nil =>
    intro acc out hmem
    simp at hmem
  | cons m0 rest ih =>
    intro acc out hmem hns hrun
    rcases List.mem_cons.mp hmem with heq | hmem2
    · subst heq
      simp [registerLoop, hns] at hrun
      cases hc : create m with
      | error e => simp [hc] at hrun
      | ok fn =>
        simp [hc] at hrun
        exact registerLoop_mono create rest m.name
          (register acc m.name fn) out
          (register_contains_self acc m.name fn) hrun
    · by_cases hskip : skipsMethod m0.name = true
      · simp [registerLoop, hskip] at hrun
        exact ih acc out hmem2 hns hrun
      · simp [registerLoop, hskip] at hrun
        cases hc : create m0 with
        | error e => simp [hc] at hrun
        | ok fn =>
          simp [hc] at hrun
          exact ih (register acc m0.name fn) out hmem2 hns hrun

theorem registerLoop_error (create : GoMethod → Except String HandlerFn)
    (ms : List GoMethod) (m : GoMethod) (e : String) :
    ∀ acc : List (String × HandlerFn), m ∈ ms →
      skipsMethod m.name = false → create m = Except.error e →
      ∃ e2, registerLoop create ms acc = Except.error e2 ∧
        ∃ m2, m2 ∈ ms ∧ skipsMethod m2.name = false ∧
          create m2 = Except.error e2 := by
  induction ms with
  | nil =>
    intro acc hmem
    simp at hmem
  | cons m0 rest ih =>
    intro acc hmem hns hfail
    by_cases hskip : skipsMethod m0.name = true
    · have hmem2 : m ∈ rest := by
        rcases List.mem_cons.mp hmem with heq | h2
        · subst heq
          rw [hns] at hskip
          exact absurd hskip (by simp)
        · exact h2
      obtain ⟨e2, hrun, m2, hm2, hns2, hc2⟩ := ih acc hmem2 hns hfail
      exact ⟨e2, by simp [registerLoop, hskip, hrun],
        m2, List.mem_cons_of_mem m0 hm2, hns2, hc2⟩
    · cases hc : create m0 with
      | error e0 =>
        refine ⟨e0, by simp [registerLoop, hskip, hc], m0,
          List.mem_cons_self m0 rest, by simpa using hskip, hc⟩
      | ok fn =>
        have hmem2 : m ∈ rest := by
          rcases List.mem_cons.mp hmem with heq | h2
          · subst heq
            rw [hfail] at hc
            exact absurd hc (by simp)
          · exact h2
        obtain ⟨e2, hrun, m2, hm2, hns2, hc2⟩ :=
          ih (register acc m0.name fn) hmem2 hns hfail
        exact ⟨e2, by simp [registerLoop, hskip, hc, hrun],
          m2, List.mem_cons_of_mem m0 hm2, hns2, hc2⟩

theorem altRW_session (srv : Server) (addr : String) (s : SessionScript) :
    altRW true ((serveClientLoop srv addr s).1 ++
      sessionDeferred (serveClientLoop srv addr s).2) = true := by
  induction s with
  | exit => simp [serveClientLoop, sessionDeferred, altRW]
  | readErr m => simp [serveClientLoop, sessionDeferred, altRW]
  | req r w rest ih =>
    rcases hA : Apply srv.methods { r with host := addr } with ⟨reply, e⟩
    cases e with
    | some m => simp [serveClientLoop, hA, sessionDeferred, altRW]
    | none =>
      cases w with
      | some m => simp [serveClientLoop, hA, sessionDeferred, altRW]
      | none => simpa [serveClientLoop, hA, altRW] using ih

theorem endsWith_concat {α : Type} [DecidableEq α] (x : α) (l : List α) :
    endsWith x (l ++ [x]) = true := by
  induction l with
  | nil => simp [endsWith]
  | cons a l ih =>
    cases l with
    | nil => simp [endsWith]
    | cons b bs => simpa [endsWith] using ih

/-- Claim C1: when dispatch of a found command raises a DispatchError, the
session writes the encoded single-line error Reply to the connection and
continues its loop exactly as a fresh continuation — no close, and the
session's eventual end is decided entirely by the rest of the run; whereas
an error originating from the connection itself (a write failure) does end
the session. -/
theorem dispatch_error_reply_continues
    (srv : Server) (addr : String) (f : Request → Except String Reply)
    (r : Request) (rest : SessionScript) (msg : String)
    (hfind : lookupFn srv.methods r.name = some (adaptDispatch f))
    (herr : f { r with host := addr } = Except.error msg) :
    ServeClient srv (Except.ok addr) (SessionScript.req r none rest) =
      (ConnEvent.read :: ConnEvent.write (NewErrorReply msg).encoded ::
         (ServeClient srv (Except.ok addr) rest).1,
       (ServeClient srv (Except.ok addr) rest).2) ∧
    (∀ wmsg : String,
      ServeClient srv (Except.ok addr) (SessionScript.req r (some wmsg) rest) =
        ([ConnEvent.read, ConnEvent.errLineWrite (errLine wmsg),
          ConnEvent.close], some wmsg)) := by
  have hA : Apply srv.methods { r with host := addr } =
      (NewErrorReply msg, none) := by
    simp [Apply, hfind, adaptDispatch, herr]
  constructor
  · simp [ServeClient, serveClientLoop, hA]
  · intro wmsg
    simp [ServeClient, serveClientLoop, hA, sessionDeferred]

/-- Witness for C1 at a concrete server and request. -/
theorem dispatch_error_reply_continues_witness :
    ServeClient c1Server (Except.ok "1.2.3.4:5")
        (SessionScript.req { name := "GET", args := [], host := "" } none
          SessionScript.exit) =
      (ConnEvent.read ::
         ConnEvent.write (NewErrorReply "wrong number of arguments").encoded ::
         (ServeClient c1Server (Except.ok "1.2.3.4:5") SessionScript.exit).1,
       (ServeClient c1Server (Except.ok "1.2.3.4:5") SessionScript.exit).2) ∧
    ServeClient c1Server (Except.ok "1.2.3.4:5")
        (SessionScript.req { name := "GET", args := [], host := "" }
          (some "broken pipe") SessionScript.exit) =
      ([ConnEvent.read, ConnEvent.errLineWrite (errLine "broken pipe"),
        ConnEvent.close], some "broken pipe") :=
  ⟨(dispatch_error_reply_continues c1Server "1.2.3.4:5" failingFn
      { name := "GET", args := [], host := "" } SessionScript.exit
      "wrong number of arguments" rfl rfl).1,
   (dispatch_error_reply_continues c1Server "1.2.3.4:5" failingFn
      { name := "GET", args := [], host := "" } SessionScript.exit
      "wrong number of arguments" rfl rfl).2 "broken pipe"⟩

/-- Claim C2: the first-character filter of `NewServer` never excludes an
exported operation — every method whose name starts with an ASCII uppercase
letter passes the filter, and on any successful construction every exported
method of the handler has an entry in the command table. -/
theorem exported_methods_never_filtered :
    (∀ name : String, isExported name = true → skipsMethod name = false) ∧
    (∀ (c : Config) (create : GoMethod → Except String HandlerFn)
        (srv : Server) (m : GoMethod),
      NewServer c create = Except.ok srv → m ∈ handlerMethods c →
      isExported m.name = true → containsName srv.methods m.name = true) := by
  have hfilter : ∀ name : String, isExported name = true →
      skipsMethod name = false := by
    intro name h
    cases hl : name.data with
    | nil => simp [skipsMethod, String.toList, hl]
    | cons c cs =>
      simp [isExported, String.toList, hl] at h
      simp [skipsMethod, String.toList, hl]
      omega
  refine ⟨hfilter, ?_⟩
  intro c create srv m hok hmem hexp
  have hns : skipsMethod m.name = false := hfilter m.name hexp
  unfold NewServer at hok
  cases hrun : registerLoop create (handlerMethods c) [] with
  | error e => rw [hrun] at hok; exact absurd hok (by simp)
  | ok table =>
    rw [hrun] at hok
    have hsrv : srv.methods = table := by
      cases hok
      rfl
    rw [hsrv]
    exact registerLoop_contains create (handlerMethods c) m [] table
      hmem hns hrun

/-- Witness for C2: "SET" passes the filter, and the server built from a
handler exposing "GET" has a "GET" entry. -/
theorem exported_methods_never_filtered_witness :
    skipsMethod "SET" = false ∧
    containsName getServer.methods "GET" = true :=
  ⟨exported_methods_never_filtered.1 "SET" rfl,
   exported_methods_never_filtered.2 getConfig okCreate getServer
     { name := "GET" } rfl (List.mem_singleton.mpr rfl) rfl⟩

/-- Claim C3: the shutdown mark is settable exactly once — on an open exit
channel `Shutdown` succeeds and marks it closed; on an already-closed one it
panics with Go's close-of-closed-channel error (fatal to the process),
never a silent no-op. -/
theorem shutdown_exactly_once (srv : Server) :
    (srv.exitChan = ChanState.opened →
      ∃ srv2, Shutdown srv = Except.ok srv2 ∧
        srv2.exitChan = ChanState.closed) ∧
    (srv.exitChan = ChanState.closed →
      Shutdown srv = Except.error "close of closed channel") := by
  constructor
  · intro h
    exact ⟨{ srv with exitChan := ChanState.closed },
      by simp [Shutdown, h, closeChan], rfl⟩
  · intro h
    simp [Shutdown, h, closeChan]

/-- Witness for C3 at a concrete server in each channel state. -/
theorem shutdown_exactly_once_witness :
    (∃ srv2, Shutdown demoServer = Except.ok srv2 ∧
      srv2.exitChan = ChanState.closed) ∧
    Shutdown { demoServer with exitChan := ChanState.closed } =
      Except.error "close of closed channel" :=
  ⟨(shutdown_exactly_once demoServer).1 rfl,
   (shutdown_exactly_once
      { demoServer with exitChan := ChanState.closed }).2 rfl⟩

/-- Counterexample to claim C4 as stated: on a read failure ("EOF") the
session does write an error line to the connection — the deferred handler
emits the fallback line `-EOF\n` before closing, so the trace is not free
of error writes. -/
theorem read_failure_error_line_cex :
    writesErrLine
      (ServeClient demoServer (Except.ok "1.2.3.4:5678")
        (SessionScript.readErr "EOF")).1 = true ∧
    (ServeClient demoServer (Except.ok "1.2.3.4:5678")
        (SessionScript.readErr "EOF")).1 =
      [ConnEvent.read, ConnEvent.errLineWrite "-EOF\n", ConnEvent.close] :=
  ⟨rfl, rfl⟩

/-- Claim C4 (amended): when reading a Request fails, the Session ends — it
reads no further Request — and the connection is closed, but before closing
the deferred handler writes the single fallback error line `-<message>\n`
to the connection. -/
theorem read_failure_ends_session (srv : Server) (addr msg : String) :
    ServeClient srv (Except.ok addr) (SessionScript.readErr msg) =
      ([ConnEvent.read, ConnEvent.errLineWrite (errLine msg),
        ConnEvent.close], some msg) := by
  simp [ServeClient, serveClientLoop, sessionDeferred]

/-- Claim C5: if any eligible (unfiltered) handler method cannot be adapted,
`NewServer` returns an error — the error produced for some failing eligible
method — and no server value is produced. -/
theorem construction_fails_on_bad_adapter
    (c : Config) (create : GoMethod → Except String HandlerFn)
    (m : GoMethod) (e : String)
    (hmem : m ∈ handlerMethods c)
    (hns : skipsMethod m.name = false)
    (hfail : create m = Except.error e) :
    ∃ e2, NewServer c create = Except.error e2 ∧
      ∃ m2, m2 ∈ handlerMethods c ∧ skipsMethod m2.name = false ∧
        create m2 = Except.error e2 := by
  obtain ⟨e2, hrun, m2, hm2, hns2, hc2⟩ :=
    registerLoop_error create (handlerMethods c) m e [] hmem hns hfail
  exact ⟨e2, by simp [NewServer, hrun], m2, hm2, hns2, hc2⟩

/-- Witness for C5: a handler exposing "GET" with an adapter builder that
rejects every signature makes construction fail. -/
theorem construction_fails_on_bad_adapter_witness :
    ∃ e2, NewServer getConfig badCreate = Except.error e2 ∧
      ∃ m2, m2 ∈ handlerMethods getConfig ∧ skipsMethod m2.name = false ∧
        badCreate m2 = Except.error e2 :=
  construction_fails_on_bad_adapter getConfig badCreate { name := "GET" }
    "Cannot handle method GET" (List.mem_singleton.mpr rfl) rfl rfl

/-- Claim C6: within one connection, requests and replies are strictly 1:1
and ordered — on every trace of every session run, reads and reply writes
strictly alternate starting with a read, so the next Request is never read
before the current Reply has been fully written. -/
theorem session_strict_request_reply (srv : Server)
    (connAddr : Except String String) (s : SessionScript) :
    altRW true (ServeClient srv connAddr s).1 = true := by
  cases connAddr with
  | error m => simp [ServeClient, sessionDeferred, altRW]
  | ok addr => simpa [ServeClient] using altRW_session srv addr s

/-- Claim C7: on every exit path of the accept loop the listening socket is
closed, and on every exit path of a session the per-client connection is
closed — every trace ends with the corresponding close event. -/
theorem every_exit_path_closes :
    (∀ (srv : Server) (s : AcceptScript),
      endsWith ListenerEvent.closeListener (Serve srv s).2.1 = true) ∧
    (∀ (srv : Server) (connAddr : Except String String) (s : SessionScript),
      endsWith ConnEvent.close (ServeClient srv connAddr s).1 = true) := by
  constructor
  · intro srv s
    simpa [Serve] using
      endsWith_concat ListenerEvent.closeListener (serveLoop s).1
  · intro srv connAddr s
    cases connAddr with
    | error m => simp [ServeClient, sessionDeferred, endsWith]
    | ok addr =>
      cases he : (serveClientLoop srv addr s).2 with
      | none =>
        simpa [ServeClient, he, sessionDeferred] using
          endsWith_concat ConnEvent.close (serveClientLoop srv addr s).1
      | some m =>
        have hgoal : (ServeClient srv (Except.ok addr) s).1 =
            (serveClientLoop srv addr s).1 ++
              [ConnEvent.errLineWrite (errLine m), ConnEvent.close] := by
          simp [ServeClient, he, sessionDeferred]
        have hsplit : (serveClientLoop srv addr s).1 ++
            [ConnEvent.errLineWrite (errLine m), ConnEvent.close] =
            ((serveClientLoop srv addr s).1 ++
              [ConnEvent.errLineWrite (errLine m)]) ++ [ConnEvent.close] := by
          simp
        rw [hgoal, hsplit]
        exact endsWith_concat ConnEvent.close
          ((serveClientLoop srv addr s).1 ++
            [ConnEvent.errLineWrite (errLine m)])

/-- Claim C8: when the configured address is empty, `ListenAndServe` binds
the unix transport to the fixed path "/tmp/redis.sock" and any other
transport (including the empty protocol, defaulted to "tcp") to the fixed
port ":6389"; a non-empty configured address is used unchanged. -/
theorem listen_default_addresses :
    (∀ srv : Server, srv.addr ≠ "" → (ListenAndServe srv).2 = srv.addr) ∧
    (∀ srv : Server, srv.proto = "unix" → srv.addr = "" →
      (ListenAndServe srv).2 = "/tmp/redis.sock") ∧
    (∀ srv : Server, srv.proto ≠ "unix" → srv.addr = "" →
      (ListenAndServe srv).2 = ":6389") := by
  refine ⟨?_, ?_, ?_⟩
  · intro srv h
    simp [ListenAndServe, h]
  · intro srv hp ha
    simp [ListenAndServe, hp, ha]
  · intro srv hp ha
    by_cases hempty : srv.proto = ""
    · simp [ListenAndServe, hempty, ha]
    · simp [ListenAndServe, hempty, ha, hp]

/-- Witness for C8 at concrete servers for each of the three cases. -/
theorem listen_default_addresses_witness :
    (ListenAndServe demoServer).2 = demoServer.addr ∧
    (ListenAndServe { demoServer with proto := "unix", addr := "" }).2 =
      "/tmp/redis.sock" ∧
    (ListenAndServe { demoServer with proto := "", addr := "" }).2 =
      ":6389" :=
  ⟨listen_default_addresses.1 demoServer (by decide),
   listen_default_addresses.2.1
     { demoServer with proto := "unix", addr := "" } rfl rfl,
   listen_default_addresses.2.2
     { demoServer with proto := "", addr := "" } (by decide) rfl⟩

/-- Claim C9: with no configured handler, `NewServer` substitutes the
default no-op handler: construction succeeds and the command table is
empty. -/
theorem nil_handler_empty_table (c : Config)
    (create : GoMethod → Except String HandlerFn)
    (hnone : c.handler = none) :
    ∃ srv, NewServer c create = Except.ok srv ∧ srv.methods = [] := by
  refine ⟨{ proto := c.proto,
            addr := if c.proto = "unix" then c.host
                    else c.host ++ ":" ++ toString c.port,
            monitorChans := [], methods := [],
            exitChan := ChanState.opened }, ?_, rfl⟩
  simp [NewServer, handlerMethods, hnone, NewDefaultHandler, registerLoop]

/-- Witness for C9 at a concrete nil-handler configuration. -/
theorem nil_handler_empty_table_witness :
    ∃ srv, NewServer nilHandlerConfig badCreate = Except.ok srv ∧
      srv.methods = [] :=
  nil_handler_empty_table nilHandlerConfig badCreate rfl

/-- Claim C10: every call to `Serve` resets the monitor subscriber set to
empty before entering the accept loop, discarding whatever channels were
registered on the server beforehand. -/
theorem serve_resets_monitor_chans (srv : Server) (s : AcceptScript) :
    (Serve srv s).1.monitorChans = [] := rfl

end RedisServer
